import Mathlib

/-!
Verification development for the `classconf` configuration engine.

The repository contains two generations of the engine:
  * `src/classconf/` — the current generation (decorator-declared schemas,
    `ConfigParser` with `_add_configs`, strict missing-key parsing);
  * `src/dataconf/` — the legacy generation (same architecture, but no
    multiple-top-level validation, lenient missing-key parsing, a
    boolean-coercion branch, and a different default-synthesis order).

This file gives a shallow embedding of both parsers.  Raw document values
(the JSON/TOML-shaped trees) are the inductive `Value`; declared field types
are `Ty`; schema metadata (`ConfigSpec` attached by the `@configclass`
decorator) is `ConfigClass`.  Python exceptions are modelled by `PError` and
fallible operations return `Except PError _` or `Option _`.  Recursion
through the schema graph is fuel-indexed, mirroring the spec's requirement
that the schema graph be finite.

Custom per-field codecs (`field_serializers` / `field_deserialzers`) are
modelled as plain `Value → Value` transforms; the arity-inspection that lets
a deserializer receive the parser handle (`wants_parser`) is elided because
no claim in scope exercises it.  Dataclass default factories are modelled by
the value they produce (every factory in the code base is pure).
-/

/-- A raw document value: the JSON/TOML-shaped tree of the on-disk document,
extended with the Python runtime values that flow through the field codec
(`Path` objects and dataclass instances).  An instance is identified by its
class name together with its field values in declaration order. -/
inductive Value where
  | vNone : Value
  | vBool (b : Bool) : Value
  | vInt (n : Int) : Value
  | vStr (s : String) : Value
  | vPath (s : String) : Value
  | vDict (entries : List (String × Value)) : Value
  | vInst (className : String) (fieldValues : List (String × Value)) : Value

/-- A declared field type: scalar primitives, a reference to a declared
configclass (`tSchema name`), or an optional wrapping (`X | None`). -/
inductive Ty where
  | tInt : Ty
  | tStr : Ty
  | tBool : Ty
  | tPath : Ty
  | tSchema (className : String) : Ty
  | tOptional (t : Ty) : Ty
deriving DecidableEq

/-- One dataclass field: its identifier, declared type, and the dataclass
default information (`default` and `default_factory` are each `MISSING` or
present; Python forbids supplying both).  A factory is modelled by the value
it returns. -/
structure FieldDesc where
  name : String
  ty : Ty
  default : Option Value
  defaultFactory : Option Value

/-- A declared configclass: the class identity (`className`, Python's
`cls.__name__`) together with its `ConfigSpec` metadata (`top_level`,
resolved section `name`, `field_mappings`, custom codecs) and its dataclass
fields in declaration order. -/
structure ConfigClass where
  className : String
  topLevel : Bool
  name : String
  fields : List FieldDesc
  fieldMappings : List (String × String)
  serializers : List (String × (Value → Value))
  deserializers : List (String × (Value → Value))

/-- The errors the two parsers can raise.  Errors that carry a list of
schema names model exception messages that join all offending class names. -/
inductive PError where
  | invalidConfigClass (names : List String)
  | multipleTopLevel (names : List String)
  | fileNotFound
  | missingKey (className key : String)
  | missingSection (name : String)
  | notRegistered (className : String)
  | notAMapping (className : String)
  | unknownClass (name : String)
  | typeError
  | missingArgument (className fieldName : String)
  | fuelOut
deriving DecidableEq

/-- Look up a declared class by identity in the table of declared classes
(Python's classes are globally visible; `is_dataclass` / `is_configclass_type`
consult the class object itself, which this table models). -/
def lookupClass (reg : List ConfigClass) (n : String) : Option ConfigClass :=
  reg.find? fun c => c.className == n

/-- `ConfigParser._unwrap_optional`: strip a `Union[X, None]` wrapper to `X`;
any other type is returned unchanged. -/
def unwrapOptional : Ty → Ty
  | .tOptional t => t
  | t => t

/-- Python `isinstance(value, field_type)` for the primitive types that can
appear as an unwrapped field type (`bool` is a subclass of `int`). -/
def isInstanceOf : Value → Ty → Bool
  | .vInt _, .tInt => true
  | .vBool _, .tInt => true
  | .vBool _, .tBool => true
  | .vStr _, .tStr => true
  | .vPath _, .tPath => true
  | _, _ => false

/-- Python truthiness `bool(value)` for raw document values. -/
def pyTruthy : Value → Bool
  | .vNone => false
  | .vBool b => b
  | .vInt n => n != 0
  | .vStr s => s != ""
  | .vPath _ => true
  | .vDict [] => false
  | .vDict (_ :: _) => true
  | .vInst _ _ => true

/-- Python `str(value)` (approximated for mappings and instances, which no
claim exercises on this path). -/
def pyStr : Value → String
  | .vNone => "None"
  | .vBool b => if b then "True" else "False"
  | .vInt n => toString n
  | .vStr s => s
  | .vPath s => s
  | .vDict _ => "dict"
  | .vInst n _ => n

/-- The single-argument constructor call `field_type(value)` used by the
primitive-coercion fallback: `int(...)`, `str(...)`, `bool(...)`,
`Path(...)`.  Failure (for example `int` of a non-numeric string) is a
`typeError`. -/
def pyCall : Ty → Value → Except PError Value
  | .tInt, .vStr s =>
    match s.toInt? with
    | some n => .ok (.vInt n)
    | none => .error .typeError
  | .tInt, .vBool b => .ok (.vInt (if b then 1 else 0))
  | .tInt, .vInt n => .ok (.vInt n)
  | .tInt, _ => .error .typeError
  | .tStr, v => .ok (.vStr (pyStr v))
  | .tBool, v => .ok (.vBool (pyTruthy v))
  | .tPath, .vStr s => .ok (.vPath s)
  | .tPath, .vPath s => .ok (.vPath s)
  | .tPath, _ => .error .typeError
  | _, _ => .error .typeError

/-- `classconf.ConfigParser._serialize_field_value`: a registered custom
serializer wins; otherwise `Path` values are stringified; everything else
passes through unchanged (there is no structural recursion into schema
instances in this generation). -/
def serializeFieldValue (value : Value) (fieldName : String)
    (serializers : List (String × (Value → Value))) : Value :=
  match serializers.lookup fieldName with
  | some f => f value
  | none =>
    match value with
    | .vPath s => .vStr s
    | v => v

/-- The document key for a field: `field_mappings.get(field.name, field.name)`. -/
def mappedKey (cfg : ConfigClass) (f : FieldDesc) : String :=
  (cfg.fieldMappings.lookup f.name).getD f.name

/-- Python dataclass construction `config_class(**kwargs)`: each field in
declaration order takes its keyword argument if supplied, else its declared
default, else its factory value, else the call fails (missing required
argument). -/
def buildInitArgs (className : String) :
    List FieldDesc → List (String × Value) → Except PError (List (String × Value))
  | [], _ => .ok []
  | f :: fs, kwargs =>
    match kwargs.lookup f.name with
    | some v => (buildInitArgs className fs kwargs).map (fun rest => (f.name, v) :: rest)
    | none =>
      match f.default with
      | some v => (buildInitArgs className fs kwargs).map (fun rest => (f.name, v) :: rest)
      | none =>
        match f.defaultFactory with
        | some v => (buildInitArgs className fs kwargs).map (fun rest => (f.name, v) :: rest)
        | none => .error (.missingArgument className f.name)

/-- `config_class(**kwargs)` producing the instance value. -/
def mkInstance (cfg : ConfigClass) (kwargs : List (String × Value)) : Except PError Value :=
  (buildInitArgs cfg.className cfg.fields kwargs).map (Value.vInst cfg.className)

/-- `classconf.ConfigParser._convert_field_value` with the recursive section
parser (`self._parse_config`) abstracted: `None` passes through; a dataclass
field type recursively parses the raw value as a section; a primitive type
whose value is not already an instance of it is coerced via the constructor
call; otherwise the value passes through unchanged.
(`isinstance(field_type, type)` is false for a residual union, which then
passes through.) -/
def convertWith (reg : List ConfigClass)
    (parse : ConfigClass → Value → Except PError Value)
    (value : Value) (fieldType : Ty) : Except PError Value :=
  match value, fieldType with
  | .vNone, _ => .ok .vNone
  | value, .tSchema n =>
    match lookupClass reg n with
    | some c => parse c value
    | none => .error (.unknownClass n)
  | value, .tOptional _ => .ok value
  | value, t => if isInstanceOf value t then .ok value else pyCall t value

/-- One iteration of the `_parse_config` loop: compute the mapped key, fail
with a missing-key error if it is absent from the section, otherwise apply
the custom deserializer if registered, else the structural conversion on the
optional-unwrapped field type. -/
def fieldStepWith (cfg : ConfigClass) (convert : Value → Ty → Except PError Value)
    (f : FieldDesc) (entries : List (String × Value)) : Except PError Value :=
  match entries.lookup (mappedKey cfg f) with
  | none => .error (.missingKey cfg.className (mappedKey cfg f))
  | some v =>
    match cfg.deserializers.lookup f.name with
    | some d => .ok (d v)
    | none => convert v (unwrapOptional f.ty)

/-- The per-field loop of `classconf.ConfigParser._parse_config`, in field
declaration order, accumulating the `kwargs` mapping. -/
def parseFieldsWith (step : FieldDesc → Except PError Value) :
    List FieldDesc → Except PError (List (String × Value))
  | [] => .ok []
  | f :: fs =>
    (step f).bind fun v => (parseFieldsWith step fs).map fun rest => (f.name, v) :: rest

/-- `classconf.ConfigParser._parse_config`: parse one schema's section into
an instance.  The fuel bounds recursion through the schema graph; applying
`in` / indexing to a non-mapping section raises (`notAMapping`). -/
def parseConfig (reg : List ConfigClass) : Nat → ConfigClass → Value → Except PError Value
  | 0, _, _ => .error .fuelOut
  | fuel + 1, cfg, .vDict entries =>
    (parseFieldsWith
        (fun f => fieldStepWith cfg (convertWith reg (parseConfig reg fuel)) f entries)
        cfg.fields).bind
      fun kwargs => mkInstance cfg kwargs
  | _ + 1, cfg, _ => .error (.notAMapping cfg.className)

/-- `classconf.ConfigParser._convert_field_value` at a given recursion
budget. -/
def convertFieldValue (reg : List ConfigClass) (fuel : Nat)
    (value : Value) (fieldType : Ty) : Except PError Value :=
  convertWith reg (parseConfig reg fuel) value fieldType

/-- One `_parse_config` field iteration at a given recursion budget. -/
def fieldStep (reg : List ConfigClass) (fuel : Nat) (cfg : ConfigClass)
    (f : FieldDesc) (entries : List (String × Value)) : Except PError Value :=
  fieldStepWith cfg (convertFieldValue reg fuel) f entries

/-- The `_parse_config` field loop at a given recursion budget. -/
def parseFields (reg : List ConfigClass) (fuel : Nat) (cfg : ConfigClass)
    (fs : List FieldDesc) (entries : List (String × Value)) :
    Except PError (List (String × Value)) :=
  parseFieldsWith (fun f => fieldStep reg fuel cfg f entries) fs

/-- `classconf.ConfigParser._get_field_default_value` with the recursive
synthesizer (`_get_class_fields`) abstracted: an explicit default wins; else
a schema-typed field recursively synthesizes that schema's defaults (this
branch precedes the factory check); else a default factory is invoked; else
`None`.  `none` here models only fuel exhaustion or a schema name missing
from the class table. -/
def getFieldDefaultValueWith (reg : List ConfigClass)
    (synth : ConfigClass → Option (List (String × Value)))
    (f : FieldDesc) (fieldType : Ty) : Option Value :=
  match f.default with
  | some v => some v
  | none =>
    match fieldType with
    | .tSchema n =>
      match lookupClass reg n with
      | some c => (synth c).map Value.vDict
      | none => none
    | _ =>
      match f.defaultFactory with
      | some v => some v
      | none => some .vNone

/-- The per-field loop of `classconf.ConfigParser._get_class_fields`. -/
def getClassFieldsAuxWith (cfg : ConfigClass) (defaultOf : FieldDesc → Option Value) :
    List FieldDesc → Option (List (String × Value))
  | f :: fs =>
    (defaultOf f).bind fun value =>
      (getClassFieldsAuxWith cfg defaultOf fs).bind fun rest =>
        some ((mappedKey cfg f, serializeFieldValue value f.name cfg.serializers) :: rest)
  | [] => some []

/-- `classconf.ConfigParser._get_class_fields`: synthesize the default raw
mapping for one schema, field by field in declaration order; each default
value is passed through the encode path and stored under the field's mapped
document key. -/
def getClassFields (reg : List ConfigClass) : Nat → ConfigClass → Option (List (String × Value))
  | 0, _ => none
  | fuel + 1, cfg =>
    getClassFieldsAuxWith cfg
      (fun f => getFieldDefaultValueWith reg (getClassFields reg fuel) f (unwrapOptional f.ty))
      cfg.fields

/-- `classconf.ConfigParser._get_field_default_value` at a given recursion
budget. -/
def getFieldDefaultValue (reg : List ConfigClass) (fuel : Nat)
    (f : FieldDesc) (fieldType : Ty) : Option Value :=
  getFieldDefaultValueWith reg (getClassFields reg fuel) f fieldType

/-- The document keys of the schemas that occur as the optional-unwrapped
type of some field of a field list. -/
def fieldNestedNames (fs : List FieldDesc) : List String :=
  fs.filterMap fun f =>
    match unwrapOptional f.ty with
    | .tSchema n => some n
    | _ => none

/-- The collected set (as a list of class names) of every schema occurring as
the optional-unwrapped field type of any field of any registered schema —
the `nested_configs` set of `ConfigParser._get_root_configs`. -/
def nestedConfigNames : List ConfigClass → List String
  | [] => []
  | c :: cs => fieldNestedNames c.fields ++ nestedConfigNames cs

/-- `ConfigParser._get_root_configs`: the registered schemas that are not in
the collected nested set, in registration order. -/
def getRootConfigs (cfgs : List ConfigClass) : List ConfigClass :=
  cfgs.filter fun c => !(nestedConfigNames cfgs).contains c.className

/-- ASCII lowering of one character, modelling Python `str.lower` /
`str.casefold` on the ASCII class and section names in scope. -/
def lowerChar (c : Char) : Char :=
  if 65 ≤ c.toNat && c.toNat ≤ 90 then Char.ofNat (c.toNat + 32) else c

/-- ASCII lowering of a string. -/
def lowerStr (s : String) : String := String.mk (s.data.map lowerChar)

/-- Lexicographic comparison of strings by character code point, the
comparison Python performs between the string components of sort keys. -/
def charLe : List Char → List Char → Bool
  | [], _ => true
  | _ :: _, [] => false
  | c :: cs, d :: ds =>
    if c.toNat < d.toNat then true
    else if d.toNat < c.toNat then false
    else charLe cs ds

/-- The sort key used when registering configs: root-first, then
case-insensitive (casefolded) section name. -/
def configLe (a b : ConfigClass) : Bool :=
  let ra : Nat := if a.topLevel then 0 else 1
  let rb : Nat := if b.topLevel then 0 else 1
  ra < rb || (ra == rb && charLe (lowerStr a.name).data (lowerStr b.name).data)

/-- Python's stable `sorted(configs, key=...)` over the registration key,
modelled by a stable insertion sort (a stable sort's output is determined
by the key, so this is extensionally the same list Python produces). -/
def sortConfigs (cfgs : List ConfigClass) : List ConfigClass :=
  List.insertionSort (fun a b => configLe a b = true) cfgs

/-- A type supplied to the parser: either a declared configclass or a plain
type lacking the `@configclass` metadata (so `is_configclass_type` is
false). -/
inductive SuppliedType where
  | configClass (c : ConfigClass)
  | plainType (typeName : String)

/-- The names of supplied types failing `is_configclass_type`, in supplied
order. -/
def suppliedInvalidNames (ts : List SuppliedType) : List String :=
  ts.filterMap fun t =>
    match t with
    | .plainType n => some n
    | .configClass _ => none

/-- The class names of the supplied configclasses flagged `top_level`, in
supplied order. -/
def suppliedTopLevelNames (ts : List SuppliedType) : List String :=
  ts.filterMap fun t =>
    match t with
    | .configClass c => if c.topLevel then some c.className else none
    | .plainType _ => none

/-- The supplied configclasses themselves, in supplied order. -/
def suppliedClasses (ts : List SuppliedType) : List ConfigClass :=
  ts.filterMap fun t =>
    match t with
    | .configClass c => some c
    | .plainType _ => none

/-- `classconf.ConfigParser._add_configs`: collect the invalid and the
top-level supplied types; raise `InvalidConfigClassError` naming every
invalid one; else raise `MultipleTopLevelConfigError` naming every top-level
one when there is more than one; else store the supplied classes sorted
root-first then by casefolded name. -/
def addConfigsCheck (ts : List SuppliedType) : Except PError (List ConfigClass) :=
  if suppliedInvalidNames ts ≠ [] then .error (.invalidConfigClass (suppliedInvalidNames ts))
  else if 1 < (suppliedTopLevelNames ts).length then
    .error (.multipleTopLevel (suppliedTopLevelNames ts))
  else .ok (sortConfigs (suppliedClasses ts))

/-- Python dict merge `a | b`: keys of `a` in order (values replaced by `b`
where shared), then the keys only in `b`, in order. -/
def dictMerge (a b : List (String × Value)) : List (String × Value) :=
  (a.map fun kv => (kv.1, (b.lookup kv.1).getD kv.2)) ++
    b.filter fun kv => (a.lookup kv.1).isNone

/-- Python dict assignment `d[k] = v`: update in place when the key exists,
else append. -/
def dictSet (d : List (String × Value)) (k : String) (v : Value) : List (String × Value) :=
  if (d.lookup k).isSome then d.map fun kv => if kv.1 == k then (kv.1, v) else kv
  else d ++ [(k, v)]

/-- The assembly loop of `classconf.ConfigParser._create_default_config`:
for every classifier root, merge a top-level schema's fields into the
document root, and give a non-root schema its own named section. -/
def createDefaultAux (reg : List ConfigClass) (fuel : Nat) :
    List ConfigClass → List (String × Value) → Option (List (String × Value))
  | [], acc => some acc
  | c :: cs, acc =>
    (getClassFields reg fuel c).bind fun data =>
      createDefaultAux reg fuel cs
        (if c.topLevel then dictMerge acc data else dictSet acc c.name (.vDict data))

/-- `classconf.ConfigParser._create_default_config` (the document it builds
and persists). -/
def createDefaultConfig (reg : List ConfigClass) (fuel : Nat)
    (configs : List ConfigClass) : Option (List (String × Value)) :=
  createDefaultAux reg fuel (getRootConfigs configs) []

/-- A constructed parser: its sorted registered configs and its in-memory
document. -/
structure ParserState where
  configs : List ConfigClass
  config : List (String × Value)

/-- `classconf.ConfigParser.__init__` as a state builder.  `contents` is
what the file-format adapter's `read` returns (`none` when the file does not
exist).  The second component of the result records the document persisted
by a default write, when one happened.  The statement order is that of the
source: the existence check (`FileNotFoundError`) runs first, then
`_add_configs`, then `_read_config` which synthesizes and writes defaults on
a missing file. -/
def initParser (reg : List ConfigClass) (fuel : Nat) (createNoexist : Bool)
    (contents : Option (List (String × Value))) (supplied : List SuppliedType) :
    Except PError (ParserState × Option (List (String × Value))) :=
  if !createNoexist && contents.isNone then .error .fileNotFound
  else
    (addConfigsCheck supplied).bind fun cfgs =>
      match contents with
      | some d => .ok (⟨cfgs, d⟩, none)
      | none =>
        match createDefaultConfig reg fuel cfgs with
        | some d => .ok (⟨cfgs, d⟩, some d)
        | none => .error .fuelOut

/-- `classconf.ConfigParser.get`: reject classes never registered with this
parser; a top-level schema parses the whole document, a non-root schema
parses its named section, whose absence is a hard failure. -/
def getConfig (reg : List ConfigClass) (fuel : Nat) (st : ParserState)
    (cfg : ConfigClass) : Except PError Value :=
  if !st.configs.any (fun c => c.className == cfg.className) then
    .error (.notRegistered cfg.className)
  else if cfg.topLevel then parseConfig reg fuel cfg (.vDict st.config)
  else
    match st.config.lookup cfg.name with
    | none => .error (.missingSection cfg.name)
    | some sec => parseConfig reg fuel cfg sec

/-- `classconf.ConfigParser.add`: run `_add_configs` over the new configs
followed by the already-registered ones.  The pair returned models the
parser object after the call: on a validation error the exception propagates
before `self._configs` is reassigned, so the state is returned unchanged
along with the error. -/
def addRun (st : ParserState) (new : List SuppliedType) :
    ParserState × Option PError :=
  match addConfigsCheck (new ++ st.configs.map SuppliedType.configClass) with
  | .error e => (st, some e)
  | .ok cfgs => (⟨cfgs, st.config⟩, none)

/-- A value is valid for a declared type: scalars of the matching primitive
type, `None` for an optional, and for a schema type an instance of that
class whose field values are in turn valid (fuel bounds the nesting
depth). -/
def validValue (reg : List ConfigClass) : Nat → Ty → Value → Bool
  | _, .tInt, .vInt _ => true
  | _, .tStr, .vStr _ => true
  | _, .tBool, .vBool _ => true
  | _, .tPath, .vPath _ => true
  | fuel + 1, .tOptional t, v =>
    match v with
    | .vNone => true
    | v => validValue reg fuel t v
  | fuel + 1, .tSchema n, .vInst n2 fvals =>
    n == n2 &&
      (match lookupClass reg n with
       | some c =>
         decide (fvals.map Prod.fst = c.fields.map FieldDesc.name) &&
           c.fields.all fun f =>
             match fvals.lookup f.name with
             | some v => validValue reg fuel (unwrapOptional f.ty) v
             | none => false
       | none => false)
  | _, _, _ => false

namespace Dataconf

/-- `dataconf.ConfigParser._parse_bool`: strings are tested (lowercased)
against the fixed truthy set; any other value falls back to Python
truthiness `bool(value)`. -/
def parseBool : Value → Value
  | .vStr s => .vBool (["true", "1", "yes"].contains (lowerStr s))
  | v => .vBool (pyTruthy v)

/-- `dataconf.ConfigParser._convert_field_value` with the recursive section
parser abstracted: dataclass types recurse into section parsing; a boolean
field whose value is not already boolean is coerced through `_parse_bool`;
other primitive mismatches use the constructor call; matching values pass
through. -/
def convertWith (reg : List ConfigClass)
    (parse : ConfigClass → Value → Except PError Value)
    (value : Value) (fieldType : Ty) : Except PError Value :=
  match value, fieldType with
  | value, .tSchema n =>
    match lookupClass reg n with
    | some c => parse c value
    | none => .error (.unknownClass n)
  | .vBool b, .tBool => .ok (.vBool b)
  | value, .tBool => .ok (parseBool value)
  | value, .tOptional _ => .ok value
  | value, t => if isInstanceOf value t then .ok value else pyCall t value

/-- The per-field loop of `dataconf.ConfigParser._parse_config`; a missing
mapped key skips the field (`continue`). -/
def parseFieldsWith (cfg : ConfigClass) (convert : Value → Ty → Except PError Value) :
    List FieldDesc → List (String × Value) → Except PError (List (String × Value))
  | [], _ => .ok []
  | f :: fs, entries =>
    match entries.lookup (mappedKey cfg f) with
    | none => parseFieldsWith cfg convert fs entries
    | some v =>
      (match cfg.deserializers.lookup f.name with
        | some d => Except.ok (d v)
        | none => convert v (unwrapOptional f.ty)).bind fun value =>
        (parseFieldsWith cfg convert fs entries).map fun rest => (f.name, value) :: rest

/-- `dataconf.ConfigParser._parse_config`: like the classconf parser, but a
field whose mapped key is absent from the section is silently skipped,
leaving the dataclass constructor to fill it from its declared default. -/
def parseConfig (reg : List ConfigClass) : Nat → ConfigClass → Value → Except PError Value
  | 0, _, _ => .error .fuelOut
  | fuel + 1, cfg, .vDict entries =>
    (parseFieldsWith cfg (convertWith reg (parseConfig reg fuel)) cfg.fields entries).bind
      fun kwargs => mkInstance cfg kwargs
  | _ + 1, cfg, _ => .error (.notAMapping cfg.className)

/-- `dataconf.ConfigParser._convert_field_value` at a given recursion
budget. -/
def convertFieldValue (reg : List ConfigClass) (fuel : Nat)
    (value : Value) (fieldType : Ty) : Except PError Value :=
  convertWith reg (parseConfig reg fuel) value fieldType

/-- The `dataconf._parse_config` field loop at a given recursion budget. -/
def parseFields (reg : List ConfigClass) (fuel : Nat) (cfg : ConfigClass)
    (fs : List FieldDesc) (entries : List (String × Value)) :
    Except PError (List (String × Value)) :=
  parseFieldsWith cfg (convertFieldValue reg fuel) fs entries

/-- `dataconf.ConfigParser._get_field_default_value` with the recursive
synthesizer abstracted: explicit default, then default factory, and only
then recursive synthesis for a schema-typed field (the opposite
factory/recursion order from the classconf generation), else `None`. -/
def getFieldDefaultValueWith (reg : List ConfigClass)
    (synth : ConfigClass → Option (List (String × Value))) (f : FieldDesc) : Option Value :=
  match f.default with
  | some v => some v
  | none =>
    match f.defaultFactory with
    | some v => some v
    | none =>
      match unwrapOptional f.ty with
      | .tSchema n =>
        match lookupClass reg n with
        | some c => (synth c).map Value.vDict
        | none => none
      | _ => some .vNone

/-- `dataconf.ConfigParser._serialize_field_value` with the recursive
synthesizer abstracted: `None` passes through, then a custom serializer
wins, `Path` values are stringified, and a configclass *instance* is
replaced by its class's synthesized defaults
(`_get_class_fields(type(value))`). -/
def serializeFieldValueWith (reg : List ConfigClass)
    (synth : ConfigClass → Option (List (String × Value))) (value : Value)
    (fieldName : String) (serializers : List (String × (Value → Value))) : Option Value :=
  match value with
  | .vNone => some .vNone
  | value =>
    match serializers.lookup fieldName with
    | some f => some (f value)
    | none =>
      match value with
      | .vPath s => some (.vStr s)
      | .vInst n _ => (lookupClass reg n).bind fun c => (synth c).map Value.vDict
      | v => some v

/-- The per-field loop of `dataconf.ConfigParser._get_class_fields`. -/
def getClassFieldsAuxWith (cfg : ConfigClass) (defaultOf : FieldDesc → Option Value)
    (encode : Value → String → Option Value) :
    List FieldDesc → Option (List (String × Value))
  | f :: fs =>
    (defaultOf f).bind fun value =>
      (encode value f.name).bind fun value =>
        (getClassFieldsAuxWith cfg defaultOf encode fs).bind fun rest =>
          some ((mappedKey cfg f, value) :: rest)
  | [] => some []

/-- `dataconf.ConfigParser._get_class_fields`. -/
def getClassFields (reg : List ConfigClass) : Nat → ConfigClass → Option (List (String × Value))
  | 0, _ => none
  | fuel + 1, cfg =>
    getClassFieldsAuxWith cfg
      (getFieldDefaultValueWith reg (getClassFields reg fuel))
      (fun value fieldName =>
        serializeFieldValueWith reg (getClassFields reg fuel) value fieldName cfg.serializers)
      cfg.fields

/-- `dataconf.ConfigParser._get_field_default_value` at a given recursion
budget. -/
def getFieldDefaultValue (reg : List ConfigClass) (fuel : Nat) (f : FieldDesc) : Option Value :=
  getFieldDefaultValueWith reg (getClassFields reg fuel) f

/-- `dataconf.ConfigParser._serialize_field_value` at a given recursion
budget. -/
def serializeFieldValue (reg : List ConfigClass) (fuel : Nat) (value : Value)
    (fieldName : String) (serializers : List (String × (Value → Value))) : Option Value :=
  serializeFieldValueWith reg (getClassFields reg fuel) value fieldName serializers

/-- The assembly loop of `dataconf.ConfigParser._create_default_config`:
every classifier root gets its own named section (this generation never
merges a top-level schema into the document root). -/
def createDefaultAux (reg : List ConfigClass) (fuel : Nat) :
    List ConfigClass → List (String × Value) → Option (List (String × Value))
  | [], acc => some acc
  | c :: cs, acc =>
    (getClassFields reg fuel c).bind fun data =>
      createDefaultAux reg fuel cs (dictSet acc c.name (.vDict data))

/-- `dataconf.ConfigParser._create_default_config`. -/
def createDefaultConfig (reg : List ConfigClass) (fuel : Nat)
    (configs : List ConfigClass) : Option (List (String × Value)) :=
  createDefaultAux reg fuel (getRootConfigs configs) []

/-- The registration validation of `dataconf.ConfigParser.__init__` (lines
37–51): only `is_configclass_type` is enforced; there is no check on the
number of top-level schemas. -/
def addConfigsCheck (ts : List SuppliedType) : Except PError (List ConfigClass) :=
  if suppliedInvalidNames ts ≠ [] then .error (.invalidConfigClass (suppliedInvalidNames ts))
  else .ok (sortConfigs (suppliedClasses ts))

/-- `dataconf.ConfigParser.__init__` as a state builder (same conventions as
the classconf `initParser`). -/
def initParser (reg : List ConfigClass) (fuel : Nat) (createNoexist : Bool)
    (contents : Option (List (String × Value))) (supplied : List SuppliedType) :
    Except PError (ParserState × Option (List (String × Value))) :=
  if !createNoexist && contents.isNone then .error .fileNotFound
  else
    (addConfigsCheck supplied).bind fun cfgs =>
      match contents with
      | some d => .ok (⟨cfgs, d⟩, none)
      | none =>
        match createDefaultConfig reg fuel cfgs with
        | some d => .ok (⟨cfgs, d⟩, some d)
        | none => .error .fuelOut

end Dataconf

/-- The schema of the spec's permissive-null example: top-level
`Required{count: int, label: str}` with no defaults
(`test_missing_defaults_written_as_null`). -/
def requiredCfg : ConfigClass :=
  ⟨"RequiredConfig", true, "RequiredConfig",
    [⟨"count", .tInt, none, none⟩, ⟨"label", .tStr, none, none⟩], [], [], []⟩

/-- A small nested schema `Inner{x: int = 0}`. -/
def innerCfg : ConfigClass :=
  ⟨"Inner", false, "Inner", [⟨"x", .tInt, some (.vInt 0), none⟩], [], [], []⟩

/-- An `Inner` instance carrying a non-default field value. -/
def innerInst : Value := .vInst "Inner" [("x", .vInt 1)]

/-- A field of declared type `Inner` with a default factory returning a
non-default instance (Python `field(default_factory=lambda: Inner(5))`). -/
def innerFactoryField : FieldDesc :=
  ⟨"inner", .tSchema "Inner", none, some (.vInst "Inner" [("x", .vInt 5)])⟩

/-- The `DefaultNested` schema of the repo's
`test_nested_name_collision_allows_lookup` test: section name equal to the
class name, one defaulted string field. -/
def defaultNestedCfg : ConfigClass :=
  ⟨"DefaultNested", false, "DefaultNested",
    [⟨"value", .tStr, some (.vStr "value"), none⟩], [], [], []⟩

/-- `ParentDefaultConfig{nested: DefaultNested}`, top-level, with a factory
default, from the same test. -/
def parentDefaultCfg : ConfigClass :=
  ⟨"ParentDefaultConfig", true, "ParentDefaultConfig",
    [⟨"nested", .tSchema "DefaultNested", none,
      some (.vInst "DefaultNested" [("value", .vStr "value")])⟩], [], [], []⟩

/-- A top-level schema `TopOne{value: int = 1}`. -/
def topOneCfg : ConfigClass :=
  ⟨"TopOne", true, "TopOne", [⟨"value", .tInt, some (.vInt 1), none⟩], [], [], []⟩

/-- A second top-level schema `TopTwo{value: int = 2}`. -/
def topTwoCfg : ConfigClass :=
  ⟨"TopTwo", true, "TopTwo", [⟨"value", .tInt, some (.vInt 2), none⟩], [], [], []⟩

/-- A schema `App{count: int, label: str = "d"}` whose second field carries a
dataclass default. -/
def appCfg : ConfigClass :=
  ⟨"App", false, "app",
    [⟨"count", .tInt, none, none⟩, ⟨"label", .tStr, some (.vStr "d"), none⟩], [], [], []⟩

/-- The field values for which the structural fallback round trip holds in
the classconf codec: an absent optional (`None`), or a scalar matching the
unwrapped declared type. -/
def scalarRoundValue : Ty → Value → Bool
  | _, .vNone => true
  | .tInt, .vInt _ => true
  | .tStr, .vStr _ => true
  | .tBool, .vBool _ => true
  | .tPath, .vPath _ => true
  | _, _ => false

theorem mem_fieldNestedNames (fs : List FieldDesc) (n : String) :
    n ∈ fieldNestedNames fs ↔ ∃ f ∈ fs, unwrapOptional f.ty = .tSchema n := by
  simp only [fieldNestedNames, List.mem_filterMap]
  constructor
  · rintro ⟨f, hf, hm⟩
    refine ⟨f, hf, ?_⟩
    revert hm
    cases unwrapOptional f.ty <;> simp
  · rintro ⟨f, hf, hm⟩
    exact ⟨f, hf, by rw [hm]⟩

theorem mem_nestedConfigNames (cfgs : List ConfigClass) (n : String) :
    n ∈ nestedConfigNames cfgs ↔
      ∃ p ∈ cfgs, ∃ f ∈ p.fields, unwrapOptional f.ty = .tSchema n := by
  induction cfgs with
  | nil => simp [nestedConfigNames]
  | cons c cs ih =>
    simp only [nestedConfigNames, List.mem_append, ih, mem_fieldNestedNames, List.mem_cons]
    constructor
    · rintro (⟨f, hf, h⟩ | ⟨p, hp, hrest⟩)
      · exact ⟨c, Or.inl rfl, f, hf, h⟩
      · exact ⟨p, Or.inr hp, hrest⟩
    · rintro ⟨p, rfl | hp, hrest⟩
      · exact Or.inl hrest
      · exact Or.inr ⟨p, hp, hrest⟩

/-- C2: the root/nested classifier returns exactly the registered schemas
that do not occur as the optional-unwrapped field type of any field of any
registered schema, and it returns them as a sublist of (hence in the same
order as) the parser's registered list. -/
theorem c2_rootClassifier (cfgs : List ConfigClass) :
    (∀ c, c ∈ getRootConfigs cfgs ↔
        c ∈ cfgs ∧
          ¬∃ p ∈ cfgs, ∃ f ∈ p.fields, unwrapOptional f.ty = .tSchema c.className) ∧
    (getRootConfigs cfgs).Sublist cfgs := by
  constructor
  · intro c
    rw [getRootConfigs, List.mem_filter]
    simp [mem_nestedConfigNames]
  · exact List.filter_sublist cfgs

/-- C2 witness: the classifier applied to a concrete registration list. -/
theorem c2_rootClassifier_witness :
    (getRootConfigs [parentDefaultCfg, defaultNestedCfg]).Sublist
      [parentDefaultCfg, defaultNestedCfg] :=
  (c2_rootClassifier [parentDefaultCfg, defaultNestedCfg]).2

/-- C6: for the top-level schema `Required{count: int, label: str}` with no
defaults, construction on an absent path with creation allowed synthesizes
and persists the document with both keys explicitly null, and a subsequent
`get(Required)` succeeds, returning an instance whose fields are both
`None`. -/
theorem c6_permissive_null_defaults :
    initParser [requiredCfg] 4 true none [.configClass requiredCfg] =
      .ok (⟨[requiredCfg], [("count", .vNone), ("label", .vNone)]⟩,
           some [("count", .vNone), ("label", .vNone)]) ∧
    getConfig [requiredCfg] 4 ⟨[requiredCfg], [("count", .vNone), ("label", .vNone)]⟩
        requiredCfg =
      .ok (.vInst "RequiredConfig" [("count", .vNone), ("label", .vNone)]) :=
  ⟨rfl, rfl⟩

/-- C8 counterexample: `DefaultNested` is registered explicitly and also
nested in `ParentDefaultConfig`.  It is excluded from the root list, default
synthesis on an absent path stores its values only inside the parent's
`nested` key, and `get(DefaultNested)` then fails with a missing-section
error instead of returning its default instance — exactly what the repo's
own test `test_nested_name_collision_allows_lookup` asserts
(`assertRaises(KeyError)`). -/
theorem c8_counterexample :
    getRootConfigs [parentDefaultCfg, defaultNestedCfg] = [parentDefaultCfg] ∧
    initParser [parentDefaultCfg, defaultNestedCfg] 5 true none
        [.configClass parentDefaultCfg, .configClass defaultNestedCfg] =
      .ok (⟨[parentDefaultCfg, defaultNestedCfg],
            [("nested", .vDict [("value", .vStr "value")])]⟩,
           some [("nested", .vDict [("value", .vStr "value")])]) ∧
    getConfig [parentDefaultCfg, defaultNestedCfg] 5
        ⟨[parentDefaultCfg, defaultNestedCfg],
         [("nested", .vDict [("value", .vStr "value")])]⟩
        defaultNestedCfg =
      .error (.missingSection "DefaultNested") :=
  ⟨rfl, rfl, rfl⟩

/-- C8 amended: a schema that is both explicitly registered and nested is
excluded from the classifier's root list; but explicit registration does NOT
keep it queryable — when the document lacks a section under the schema's
name (the general case after default synthesis, since only classifier roots
are written), `get()` fails with a missing-section error. -/
theorem c8_nested_explicit (cfgs : List ConfigClass) (c p : ConfigClass)
    (hp : p ∈ cfgs)
    (hf : ∃ f ∈ p.fields, unwrapOptional f.ty = .tSchema c.className) :
    c ∉ getRootConfigs cfgs ∧
    ∀ (reg : List ConfigClass) (fuel : Nat) (st : ParserState),
      c.topLevel = false →
      st.configs.any (fun x => x.className == c.className) = true →
      st.config.lookup c.name = none →
      getConfig reg fuel st c = .error (.missingSection c.name) := by
  constructor
  · intro hmem
    rw [getRootConfigs, List.mem_filter] at hmem
    have hnested : c.className ∈ nestedConfigNames cfgs :=
      (mem_nestedConfigNames cfgs c.className).mpr ⟨p, hp, hf⟩
    simp [hnested] at hmem
  · intro reg fuel st htop hreg hlook
    rw [getConfig, hreg]
    simp [htop, hlook]

/-- C8 witness: the amended statement applied to the test's concrete
schemas. -/
theorem c8_nested_explicit_witness :
    defaultNestedCfg ∉ getRootConfigs [parentDefaultCfg, defaultNestedCfg] ∧
    getConfig [] 3 ⟨[defaultNestedCfg], []⟩ defaultNestedCfg =
      .error (.missingSection "DefaultNested") := by
  have h := c8_nested_explicit [parentDefaultCfg, defaultNestedCfg]
    defaultNestedCfg parentDefaultCfg (by simp)
    ⟨⟨"nested", .tSchema "DefaultNested", none,
      some (.vInst "DefaultNested" [("value", .vStr "value")])⟩,
     by simp [parentDefaultCfg], rfl⟩
  exact ⟨h.1, h.2 [] 3 ⟨[defaultNestedCfg], []⟩ rfl rfl rfl⟩

/-- C1 counterexample: a nested schema instance is a valid value for its
schema-typed field, but the classconf structural fallback does not round-trip
it: the encoder passes the instance through unchanged (no recursion into
schema instances), and the decoder then tries to parse the non-mapping value
as a section and fails, so `decode(encode(v)) ≠ v`. -/
theorem c1_counterexample :
    validValue [innerCfg] 2 (.tSchema "Inner") innerInst = true ∧
    serializeFieldValue innerInst "child" [] = innerInst ∧
    convertFieldValue [innerCfg] 3 (serializeFieldValue innerInst "child" [])
        (.tSchema "Inner") =
      .error (.notAMapping "Inner") :=
  ⟨rfl, rfl, rfl⟩

/-- C1 amended: with no custom codecs the structural fallback round-trips
scalars (int, str, bool, Path) and absent optional values (`None`), for any
declared type whose unwrapped form matches: decoding the encoding gives the
value back. -/
theorem c1_scalar_roundtrip (reg : List ConfigClass) (fuel : Nat) (ty : Ty)
    (v : Value) (fieldName : String) (h : scalarRoundValue ty v = true) :
    convertFieldValue reg fuel (serializeFieldValue v fieldName []) ty = .ok v := by
  cases ty <;> cases v <;>
    simp_all [scalarRoundValue, serializeFieldValue, convertFieldValue, convertWith,
      isInstanceOf, pyCall]

/-- C1 witness: the Path scalar round trip at a concrete value. -/
theorem c1_scalar_roundtrip_witness :
    scalarRoundValue .tPath (.vPath "out") = true ∧
    convertFieldValue [] 0 (serializeFieldValue (.vPath "out") "output_dir" []) .tPath =
      .ok (.vPath "out") :=
  ⟨rfl, c1_scalar_roundtrip [] 0 .tPath (.vPath "out") "output_dir" rfl⟩

theorem parseFieldsWith_ok_of_mem (step : FieldDesc → Except PError Value)
    (fs : List FieldDesc) :
    ∀ l, parseFieldsWith step fs = .ok l → ∀ f ∈ fs, ∃ v, step f = .ok v := by
  induction fs with
  | nil => intro l _ f hf; cases hf
  | cons g gs ih =>
    intro l h f hf
    rw [parseFieldsWith] at h
    cases hstep : step g with
    | error e => rw [hstep] at h; simp [Except.bind] at h
    | ok v =>
      rw [hstep] at h
      simp only [Except.bind] at h
      rcases List.mem_cons.mp hf with rfl | hf2
      · exact ⟨v, hstep⟩
      · cases hrec : parseFieldsWith step gs with
        | error e => rw [hrec] at h; simp [Except.map] at h
        | ok l2 => exact ih l2 hrec f hf2

theorem parseFieldsWith_error_append (step : FieldDesc → Except PError Value)
    (fs1 : List FieldDesc) (f : FieldDesc) (fs2 : List FieldDesc) (e : PError)
    (hok : ∀ g ∈ fs1, ∃ v, step g = .ok v) (herr : step f = .error e) :
    parseFieldsWith step (fs1 ++ f :: fs2) = .error e := by
  induction fs1 with
  | nil =>
    rw [List.nil_append, parseFieldsWith, herr]
    rfl
  | cons g gs ih =>
    obtain ⟨v, hv⟩ := hok g (List.mem_cons_self g gs)
    rw [List.cons_append, parseFieldsWith, hv]
    have hrest := ih fun g2 hg2 => hok g2 (List.mem_cons_of_mem g hg2)
    simp only [Except.bind]
    rw [hrest]
    rfl

/-- C3 amended: in the classconf parser a missing mapped key makes parsing
fail — it can never produce an instance — and the reported error is the
missing-key error naming the schema and the key of the first failing field;
the legacy dataconf parser instead silently skips missing keys (see the
counterexample). -/
theorem c3_missing_key (reg : List ConfigClass) (fuel : Nat) (cfg : ConfigClass)
    (entries : List (String × Value)) :
    ((∃ f ∈ cfg.fields, entries.lookup (mappedKey cfg f) = none) →
      ∀ v, parseConfig reg (fuel + 1) cfg (.vDict entries) ≠ .ok v) ∧
    (∀ fs1 f fs2, cfg.fields = fs1 ++ f :: fs2 →
      entries.lookup (mappedKey cfg f) = none →
      (∀ g ∈ fs1, ∃ v, fieldStep reg fuel cfg g entries = .ok v) →
      parseConfig reg (fuel + 1) cfg (.vDict entries) =
        .error (.missingKey cfg.className (mappedKey cfg f))) := by
  have hunfold : parseConfig reg (fuel + 1) cfg (.vDict entries) =
      (parseFieldsWith (fun f => fieldStep reg fuel cfg f entries) cfg.fields).bind
        (fun kwargs => mkInstance cfg kwargs) := rfl
  constructor
  · rintro ⟨f, hf, hlook⟩ v hok_eq
    rw [hunfold] at hok_eq
    cases hpf : parseFieldsWith (fun f => fieldStep reg fuel cfg f entries) cfg.fields with
    | error e => rw [hpf] at hok_eq; simp [Except.bind] at hok_eq
    | ok l =>
      obtain ⟨w, hw⟩ := parseFieldsWith_ok_of_mem _ cfg.fields l hpf f hf
      have herr : fieldStep reg fuel cfg f entries =
          .error (.missingKey cfg.className (mappedKey cfg f)) := by
        simp [fieldStep, fieldStepWith, hlook]
      rw [herr] at hw
      cases hw
  · intro fs1 f fs2 hsplit hlook hok
    have herr : fieldStep reg fuel cfg f entries =
        .error (.missingKey cfg.className (mappedKey cfg f)) := by
      simp [fieldStep, fieldStepWith, hlook]
    rw [hunfold, hsplit, parseFieldsWith_error_append _ fs1 f fs2 _ hok herr]
    rfl

/-- C3 counterexample: the dataconf parser silently skips a missing mapped
key.  With `App{count: int, label: str = "d"}` and a section containing only
`count`, parsing succeeds and silently fills `label` from the dataclass
default instead of failing with a missing-key error. -/
theorem c3_counterexample :
    ([(("count" : String), Value.vInt 1)].lookup
        (mappedKey appCfg ⟨"label", .tStr, some (.vStr "d"), none⟩) = none) ∧
    Dataconf.parseConfig [] 1 appCfg (.vDict [("count", .vInt 1)]) =
      .ok (.vInst "App" [("count", .vInt 1), ("label", .vStr "d")]) :=
  ⟨rfl, rfl⟩

/-- C3 witness: the classconf parser at a concrete section missing the
`label` key. -/
theorem c3_missing_key_witness :
    parseConfig [] 1 requiredCfg (.vDict [("count", .vInt 1)]) =
      .error (.missingKey "RequiredConfig" "label") := by
  have h := (c3_missing_key [] 0 requiredCfg [("count", .vInt 1)]).2
    [⟨"count", .tInt, none, none⟩] ⟨"label", .tStr, none, none⟩ [] rfl rfl
    (by
      intro g hg
      simp at hg
      subst hg
      exact ⟨.vInt 1, rfl⟩)
  exact h

theorem suppliedInvalidNames_append (a b : List SuppliedType) :
    suppliedInvalidNames (a ++ b) = suppliedInvalidNames a ++ suppliedInvalidNames b :=
  List.filterMap_append ..

theorem suppliedTopLevelNames_append (a b : List SuppliedType) :
    suppliedTopLevelNames (a ++ b) = suppliedTopLevelNames a ++ suppliedTopLevelNames b :=
  List.filterMap_append ..

theorem suppliedInvalidNames_map_configClass (l : List ConfigClass) :
    suppliedInvalidNames (l.map .configClass) = [] := by
  induction l with
  | nil => rfl
  | cons c cs ih => simp [suppliedInvalidNames, List.filterMap_cons] at ih ⊢

/-- C4 amended: in the classconf generation, construction and `add()` (both
via `_add_configs`) fail with `MultipleTopLevelConfigError` naming every
offending schema whenever the supplied schemas are all valid and more than
one is flagged top-level; the legacy dataconf constructor performs no such
check (see the counterexample). -/
theorem c4_multiple_toplevel (ts : List SuppliedType)
    (hvalid : suppliedInvalidNames ts = [])
    (hmulti : 1 < (suppliedTopLevelNames ts).length) :
    addConfigsCheck ts = .error (.multipleTopLevel (suppliedTopLevelNames ts)) ∧
    ∀ st : ParserState,
      addRun st ts =
        (st, some (.multipleTopLevel
          (suppliedTopLevelNames (ts ++ st.configs.map .configClass)))) := by
  have key : ∀ us : List SuppliedType, suppliedInvalidNames us = [] →
      1 < (suppliedTopLevelNames us).length →
      addConfigsCheck us = .error (.multipleTopLevel (suppliedTopLevelNames us)) := by
    intro us h1 h2
    rw [addConfigsCheck, if_neg (by simp [h1]), if_pos h2]
  refine ⟨key ts hvalid hmulti, ?_⟩
  intro st
  have h1 : suppliedInvalidNames (ts ++ st.configs.map .configClass) = [] := by
    rw [suppliedInvalidNames_append, hvalid, suppliedInvalidNames_map_configClass]
    rfl
  have h2 : 1 < (suppliedTopLevelNames (ts ++ st.configs.map .configClass)).length := by
    rw [suppliedTopLevelNames_append, List.length_append]
    omega
  rw [addRun, key _ h1 h2]

/-- C4 counterexample: the dataconf constructor supplied with two top-level
schemas does not fail — construction succeeds with both registered. -/
theorem c4_counterexample :
    Dataconf.initParser [] 1 false (some [])
        [.configClass topOneCfg, .configClass topTwoCfg] =
      .ok (⟨[topOneCfg, topTwoCfg], []⟩, none) := rfl

/-- C4 witness: the classconf validation at two concrete top-level
schemas. -/
theorem c4_multiple_toplevel_witness :
    addConfigsCheck [.configClass topOneCfg, .configClass topTwoCfg] =
      .error (.multipleTopLevel ["TopOne", "TopTwo"]) :=
  (c4_multiple_toplevel [.configClass topOneCfg, .configClass topTwoCfg]
    rfl (by decide)).1

/-- C5 counterexample: with an absent file, creation forbidden, and an
invalid supplied type, classconf construction raises `FileNotFoundError` —
the registration validation error is NOT raised before the file-existence
check (`__init__` checks `config_path.exists()` before `_add_configs`). -/
theorem c5_counterexample :
    initParser [] 1 false none [.plainType "InvalidConfig"] = .error .fileNotFound ∧
    PError.fileNotFound ≠ PError.invalidConfigClass ["InvalidConfig"] :=
  ⟨rfl, by decide⟩

/-- C5 amended: the file-existence check runs first; whenever it passes
(creation allowed, or the file is present), a registration validation error
surfaces before any document read or default-document write (the error
result carries no written document). -/
theorem c5_validation_before_load (reg : List ConfigClass) (fuel : Nat)
    (createNoexist : Bool) (contents : Option (List (String × Value)))
    (supplied : List SuppliedType) (e : PError)
    (hfile : createNoexist = true ∨ contents.isSome = true)
    (hval : addConfigsCheck supplied = .error e) :
    initParser reg fuel createNoexist contents supplied = .error e := by
  have hcond : (!createNoexist && contents.isNone) = false := by
    rcases hfile with h | h
    · rw [h]; rfl
    · cases contents with
      | none => simp at h
      | some d => simp
  rw [initParser, if_neg (by simp [hcond]), hval]
  rfl

/-- C5 witness: a validation failure with creation allowed surfaces the
validation error. -/
theorem c5_validation_before_load_witness :
    initParser [] 1 true none [.plainType "InvalidConfig"] =
      .error (.invalidConfigClass ["InvalidConfig"]) :=
  c5_validation_before_load [] 1 true none [.plainType "InvalidConfig"]
    (.invalidConfigClass ["InvalidConfig"]) (Or.inl rfl) rfl

/-- C7 counterexample: for a schema-typed field carrying a default factory,
the dataconf synthesizer invokes the factory (yielding the factory's
instance), whereas the claimed order — nested-schema recursion before any
factory — would synthesize the nested schema's defaults (what the classconf
synthesizer computes).  The two results differ. -/
theorem c7_counterexample :
    Dataconf.getFieldDefaultValue [innerCfg] 2 innerFactoryField =
      some (.vInst "Inner" [("x", .vInt 5)]) ∧
    getFieldDefaultValue [innerCfg] 2 innerFactoryField
        (unwrapOptional innerFactoryField.ty) =
      some (.vDict [("x", .vInt 0)]) ∧
    some (Value.vInst "Inner" [("x", .vInt 5)]) ≠ some (Value.vDict [("x", .vInt 0)]) :=
  ⟨rfl, rfl, fun h => Value.noConfusion (Option.some.inj h)⟩

/-- C7 amended: the classconf synthesizer tries, in this order: explicit
default; nested-schema recursion (which takes precedence over any
default-factory); default factory; the permissive `None`.  (The dataconf
generation swaps the factory and recursion steps — see the
counterexample.) -/
theorem c7_default_priority (reg : List ConfigClass) (fuel : Nat)
    (f : FieldDesc) (fieldType : Ty) :
    (∀ v, f.default = some v → getFieldDefaultValue reg fuel f fieldType = some v) ∧
    (∀ n c, f.default = none → fieldType = .tSchema n → lookupClass reg n = some c →
      getFieldDefaultValue reg fuel f fieldType =
        (getClassFields reg fuel c).map Value.vDict) ∧
    (∀ v, f.default = none → (∀ n, fieldType ≠ .tSchema n) → f.defaultFactory = some v →
      getFieldDefaultValue reg fuel f fieldType = some v) ∧
    (f.default = none → (∀ n, fieldType ≠ .tSchema n) → f.defaultFactory = none →
      getFieldDefaultValue reg fuel f fieldType = some .vNone) := by
  refine ⟨?_, ?_, ?_, ?_⟩
  · intro v hv
    simp [getFieldDefaultValue, getFieldDefaultValueWith, hv]
  · intro n c hd ht hl
    subst ht
    simp [getFieldDefaultValue, getFieldDefaultValueWith, hd, hl]
  · intro v hd hns hf
    cases fieldType <;>
      first
        | exact absurd rfl (hns _)
        | simp [getFieldDefaultValue, getFieldDefaultValueWith, hd, hf]
  · intro hd hns hf
    cases fieldType <;>
      first
        | exact absurd rfl (hns _)
        | simp [getFieldDefaultValue, getFieldDefaultValueWith, hd, hf]

/-- C7 witness: the nested-recursion step at a concrete field that also
carries a factory. -/
theorem c7_default_priority_witness :
    getFieldDefaultValue [innerCfg] 2 innerFactoryField (.tSchema "Inner") =
      (getClassFields [innerCfg] 2 innerCfg).map Value.vDict :=
  (c7_default_priority [innerCfg] 2 innerFactoryField (.tSchema "Inner")).2.1
    "Inner" innerCfg rfl rfl rfl

/-- C9 counterexample: the raw value `5` (an int, not a boolean and not one
of the truthy strings) decodes to `true` for a boolean field, where the
claim requires `false` for everything outside the truthy-string set. -/
theorem c9_counterexample :
    Dataconf.convertFieldValue [] 0 (.vInt 5) .tBool = .ok (.vBool true) ∧
    Dataconf.convertFieldValue [] 0 (.vInt 5) .tBool ≠ .ok (.vBool false) :=
  ⟨rfl, fun h => Bool.noConfusion (Value.vBool.inj (Except.ok.inj h))⟩

/-- C9 amended: for a boolean-typed field whose raw value is not already
boolean, the dataconf decoder applies `_parse_bool`: for string raw values,
membership of the lowercased string in the fixed truthy set
("true"/"1"/"yes") decides the result; any non-string raw value is instead
coerced by Python truthiness (`bool(value)`), so for example nonzero
integers decode to true. -/
theorem c9_bool_coercion (reg : List ConfigClass) (fuel : Nat) (v : Value)
    (hnb : ∀ b, v ≠ .vBool b) :
    Dataconf.convertFieldValue reg fuel v .tBool = .ok (Dataconf.parseBool v) ∧
    (∀ s, Dataconf.parseBool (.vStr s) = .vBool true ↔
      lowerStr s = "true" ∨ lowerStr s = "1" ∨ lowerStr s = "yes") ∧
    (∀ w, (∀ s, w ≠ .vStr s) → Dataconf.parseBool w = .vBool (pyTruthy w)) := by
  refine ⟨?_, ?_, ?_⟩
  · cases v <;>
      first
        | exact absurd rfl (hnb _)
        | rfl
  · intro s
    simp [Dataconf.parseBool, List.contains]
  · intro w hw
    cases w <;>
      first
        | exact absurd rfl (hw _)
        | rfl

/-- C9 witness: the concrete string "Yes" is decoded case-insensitively to
true. -/
theorem c9_bool_coercion_witness :
    Dataconf.convertFieldValue [] 0 (.vStr "Yes") .tBool =
      .ok (Dataconf.parseBool (.vStr "Yes")) ∧
    Dataconf.parseBool (.vStr "Yes") = .vBool true := by
  have h := c9_bool_coercion [] 0 (.vStr "Yes") (fun b hb => by cases hb)
  exact ⟨h.1, (h.2.1 "Yes").mpr (Or.inr (Or.inr rfl))⟩

theorem suppliedClasses_append (a b : List SuppliedType) :
    suppliedClasses (a ++ b) = suppliedClasses a ++ suppliedClasses b :=
  List.filterMap_append ..

theorem suppliedClasses_map_configClass (l : List ConfigClass) :
    suppliedClasses (l.map .configClass) = l := by
  induction l with
  | nil => rfl
  | cons c cs ih =>
    simp only [List.map_cons, suppliedClasses, List.filterMap_cons] at ih ⊢
    rw [ih]

theorem addConfigsCheck_error_iff (us : List SuppliedType) :
    (∃ e, addConfigsCheck us = .error e) ↔
      (suppliedInvalidNames us ≠ [] ∨ 1 < (suppliedTopLevelNames us).length) := by
  rw [addConfigsCheck]
  by_cases h1 : suppliedInvalidNames us ≠ []
  · simp [h1]
  · by_cases h2 : 1 < (suppliedTopLevelNames us).length
    · simp [h1, h2]
    · simp [h1, h2]

/-- C10: `add()` is atomic with respect to the registration state: the add
fails exactly when the union of new and old registrations fails validation
(an invalid supplied type, or more than one top-level schema in the union);
a failing add leaves the parser exactly as it was (the exception is raised
before `self._configs` is reassigned); a successful add replaces the
registered list by the stable-sorted union — a permutation of the new
classes together with the previously registered ones. -/
theorem c10_add_atomic (st : ParserState) (new : List SuppliedType) :
    ((addRun st new).2.isSome = true ↔
      suppliedInvalidNames new ≠ [] ∨
        1 < (suppliedTopLevelNames (new ++ st.configs.map .configClass)).length) ∧
    ((addRun st new).2.isSome = true → (addRun st new).1 = st) ∧
    ((addRun st new).2 = none →
      (addRun st new).1.configs =
        sortConfigs (suppliedClasses (new ++ st.configs.map .configClass)) ∧
      ((addRun st new).1.configs).Perm (suppliedClasses new ++ st.configs)) := by
  have hinv : suppliedInvalidNames (new ++ st.configs.map .configClass) =
      suppliedInvalidNames new := by
    rw [suppliedInvalidNames_append, suppliedInvalidNames_map_configClass,
      List.append_nil]
  refine ⟨?_, ?_, ?_⟩
  · have hsome : (addRun st new).2.isSome = true ↔
        ∃ e, addConfigsCheck (new ++ st.configs.map .configClass) = .error e := by
      rw [addRun]
      cases hc : addConfigsCheck (new ++ st.configs.map .configClass) with
      | error e => simp
      | ok cfgs => simp
    rw [hsome, addConfigsCheck_error_iff, hinv]
  · intro h
    rw [addRun] at h ⊢
    cases hc : addConfigsCheck (new ++ st.configs.map .configClass) with
    | error e => rfl
    | ok cfgs => rw [hc] at h; simp at h
  · intro h
    rw [addRun] at h ⊢
    cases hc : addConfigsCheck (new ++ st.configs.map .configClass) with
    | error e => rw [hc] at h; cases h
    | ok cfgs =>
      have hcfgs : cfgs = sortConfigs (suppliedClasses (new ++ st.configs.map .configClass)) := by
        rw [addConfigsCheck] at hc
        by_cases h1 : suppliedInvalidNames (new ++ st.configs.map .configClass) ≠ []
        · simp [h1] at hc
        · by_cases h2 :
              1 < (suppliedTopLevelNames (new ++ st.configs.map .configClass)).length
          · simp [h1, h2] at hc
          · simp [h1, h2] at hc
            exact hc.symm
      refine ⟨hcfgs, ?_⟩
      show cfgs.Perm (suppliedClasses new ++ st.configs)
      have hsc : suppliedClasses (new ++ st.configs.map .configClass) =
          suppliedClasses new ++ st.configs := by
        rw [suppliedClasses_append, suppliedClasses_map_configClass]
      rw [hcfgs, hsc, sortConfigs]
      exact List.perm_insertionSort _ _

/-- C10 witness: adding a second top-level schema to a parser that already
holds one fails and leaves the registration state untouched. -/
theorem c10_add_atomic_witness :
    (addRun ⟨[topOneCfg], []⟩ [.configClass topTwoCfg]).2.isSome = true ∧
    (addRun ⟨[topOneCfg], []⟩ [.configClass topTwoCfg]).1 = ⟨[topOneCfg], []⟩ := by
  have h := c10_add_atomic ⟨[topOneCfg], []⟩ [.configClass topTwoCfg]
  exact ⟨rfl, h.2.1 rfl⟩
